import Mathlib

/-!
Verification of the reclog session supervisor against its specification.

Shallow embedding of the Rust sources (src/status.rs, src/main.rs, src/pty.rs,
src/buffer.rs, src/reader.rs, src/writer.rs, src/format.rs, src/term.rs,
src/shim.rs, src/signal.rs).  Operating-system effects (waitpid results,
select readiness, file existence) are passed in explicitly as oracle
arguments; machine integers are modelled as Int / Nat.
-/

namespace Reclog

/-! ### Exit codes (src/status.rs) -/

/-- Modelled from the spec: the constant EXIT_SUCCESS is used by main.rs but is
absent from src/status.rs; the spec says "0 on child success". -/
def EXIT_SUCCESS : Int := 0

/-- From status.rs: general error. -/
def EXIT_FAILURE : Int := 1

/-- From status.rs: invalid usage. -/
def EXIT_USAGE : Int := 2

/-- From status.rs: command invoked cannot execute. -/
def EXIT_COMMAND_FAILED : Int := 126

/-- From status.rs: command killed by signal; actual code is this plus the
signal number. -/
def EXIT_COMMAND_SIGNALED : Int := 128

/-! ### Wait status (rustix::process::WaitStatus as used by pty.rs/main.rs) -/

/-- Child wait status as observed through waitpid with UNTRACED | CONTINUED:
the child exited with a code, was killed by a signal, stopped, or continued. -/
inductive WaitStatus
  | exited (code : Int)
  | signaled (sig : Nat)
  | stopped (sig : Nat)
  | continued
deriving DecidableEq, Repr

/-- WaitStatus::exited(). -/
def WaitStatus.isExited : WaitStatus → Bool
  | .exited _ => true
  | _ => false

/-- WaitStatus::signaled(). -/
def WaitStatus.isSignaled : WaitStatus → Bool
  | .signaled _ => true
  | _ => false

/-- WaitStatus::stopped(). -/
def WaitStatus.isStopped : WaitStatus → Bool
  | .stopped _ => true
  | _ => false

/-- WaitStatus::exit_status(). -/
def WaitStatus.exitStatus : WaitStatus → Option Int
  | .exited c => some c
  | _ => none

/-- WaitStatus::terminating_signal(). -/
def WaitStatus.terminatingSignal : WaitStatus → Option Nat
  | .signaled n => some n
  | _ => none

/-! ### Exit-status forwarding (main.rs, forward_exit_status) -/

/-- Result of forward_exit_status: `raised` is the signal self-delivered via
raise_signal (performed first; for a deadly signal with default disposition it
terminates the process, in which case `code`/`diagnostic` are never reached),
`code` the code passed to terminate!, `diagnostic` whether an error message is
printed to stderr. -/
structure ExitResult where
  raised : Option Nat
  code : Int
  diagnostic : Bool
deriving DecidableEq, Repr

/-- From main.rs forward_exit_status: forward the child status to the parent
exit.  `status` is pty_proc.child_status(); `pending_interrupt` is the value
returned by the signal-processor thread. -/
def forward_exit_status (status : WaitStatus) (pending_interrupt : Option Nat) :
    ExitResult :=
  match status with
  | .exited c =>
      { raised := none, code := c, diagnostic := c != EXIT_SUCCESS }
  | .signaled n =>
      { raised := pending_interrupt,
        code := EXIT_COMMAND_SIGNALED + (n : Int),
        diagnostic := true }
  | _ =>
      { raised := none, code := EXIT_COMMAND_FAILED, diagnostic := true }

/-! ### Signal numbers (Linux numbering, as produced by rustix Signal::as_raw) -/

/-- SIGHUP. -/
def SIGHUP : Nat := 1

/-- SIGINT. -/
def SIGINT : Nat := 2

/-- SIGQUIT. -/
def SIGQUIT : Nat := 3

/-- SIGKILL. -/
def SIGKILL : Nat := 9

/-- SIGPIPE. -/
def SIGPIPE : Nat := 13

/-- SIGALRM. -/
def SIGALRM : Nat := 14

/-- SIGTERM. -/
def SIGTERM : Nat := 15

/-- SIGCHLD. -/
def SIGCHLD : Nat := 17

/-- SIGCONT. -/
def SIGCONT : Nat := 18

/-- SIGSTOP. -/
def SIGSTOP : Nat := 19

/-- SIGTSTP. -/
def SIGTSTP : Nat := 20

/-- SIGTTIN. -/
def SIGTTIN : Nat := 21

/-- SIGTTOU. -/
def SIGTTOU : Nat := 22

/-- SIGWINCH. -/
def SIGWINCH : Nat := 28

/-! ### Signal-processor state machine (main.rs, process_signals)

The loop body of process_signals is embedded as a step function.  The
results of the wait_child(NoHang) calls made while handling an event depend
on the shared PtyProc state and the kernel, so each event carries them as an
oracle (an Except: wait_child can also fail).  The calls the loop makes into
the rest of the program are recorded as a list of actions. -/

/-- Calls performed by the signal-processor loop, in order. -/
inductive SPAction
  | killChild (sig : Nat)
  | waitAnySignal
  | waitChildNoHang
  | raiseSignal (sig : Nat)
  | dropSignal (sig : Nat)
  | resizeChild
  | setPtyTimeout (ms : Nat)
  | closeStdin
deriving DecidableEq, Repr

/-- Event returned by signal::wait_signal(None), with the result of any
wait_child(NoHang) call the corresponding match arm performs. -/
inductive SPEvent
  | interrupt (sig : Nat) (waitRes : Except Unit (Option WaitStatus))
  | quit (sig : Nat) (waitRes : Except Unit (Option WaitStatus))
  | stop (sig : Nat)
  | cont (sig : Nat)
  | child (waitRes : Except Unit (Option WaitStatus))
  | resize
deriving Repr

/-- Local state of process_signals. -/
structure SPState where
  pending_interrupt : Option Nat
  pending_stop : Option Nat
deriving DecidableEq, Repr

/-- One iteration of the loop either continues with a new state, breaks out
of the loop, or terminates the process via terminate! (fatal error path). -/
inductive SPStep
  | next (st : SPState) (acts : List SPAction)
  | brk (acts : List SPAction)
  | fatal (acts : List SPAction)
deriving DecidableEq, Repr

/-- From main.rs process_signals, arm "Interrupt(sig) | Quit(sig)": kill the
child if not asked before and wait up to the quit timeout, then
wait_child(NoHang); if the child is not seen exited or signaled, SIGKILL it;
finally self-deliver sig (which is expected to terminate the process; if it
does not, the loop continues with unchanged state). -/
def spInterruptOrQuit (st : SPState) (sig : Nat)
    (waitRes : Except Unit (Option WaitStatus)) : SPStep :=
  let preActs : List SPAction :=
    if st.pending_interrupt.isNone then [.killChild sig, .waitAnySignal] else []
  let killActs : List SPAction :=
    match waitRes with
    | .ok (some status) =>
        if status.isExited || status.isSignaled then [] else [.killChild SIGKILL]
    | _ => [.killChild SIGKILL]
  .next st (preActs ++ [.waitChildNoHang] ++ killActs ++ [.raiseSignal sig])

/-- From main.rs process_signals: the body of the wait_signal loop. -/
def spStep (st : SPState) (ev : SPEvent) : SPStep :=
  match ev with
  | .interrupt sig waitRes =>
      if st.pending_interrupt.isNone then
        .next { st with pending_interrupt := some sig } [.killChild sig]
      else
        spInterruptOrQuit st sig waitRes
  | .quit sig waitRes => spInterruptOrQuit st sig waitRes
  | .stop sig =>
      if st.pending_stop.isNone then
        .next { st with pending_stop := some sig } [.killChild SIGSTOP]
      else
        .next { st with pending_stop := none }
          [.killChild SIGSTOP, .raiseSignal sig, .dropSignal SIGCONT,
           .killChild SIGCONT]
  | .cont _ => .next { st with pending_stop := none } [.killChild SIGCONT]
  | .child waitRes =>
      match waitRes with
      | .error _ => .fatal [.waitChildNoHang]
      | .ok (some status) =>
          if status.isExited || status.isSignaled then
            .brk [.waitChildNoHang]
          else if status.isStopped then
            match st.pending_stop with
            | some stopSig =>
                .next { st with pending_stop := none }
                  [.waitChildNoHang, .raiseSignal stopSig, .dropSignal SIGCONT,
                   .killChild SIGCONT]
            | none => .next st [.waitChildNoHang]
          else
            .next st [.waitChildNoHang]
      | .ok none => .next st [.waitChildNoHang]
  | .resize => .next st [.resizeChild]

/-- From main.rs process_signals: run the loop over a sequence of events.
On break, the function sets the pty-reader read timeout to the quit timeout,
closes the stdin reader, and returns pending_interrupt.  Returns none when
the loop did not return within the given events (still waiting, or the
process terminated on the fatal path); `timeoutMs` is the quit timeout. -/
def process_signals (timeoutMs : Nat) :
    SPState → List SPEvent → Option (List SPAction × Option Nat)
  | _, [] => none
  | st, ev :: rest =>
      match spStep st ev with
      | .next st2 acts =>
          (process_signals timeoutMs st2 rest).map
            (fun r => (acts ++ r.1, r.2))
      | .brk acts =>
          some (acts ++ [.setPtyTimeout timeoutMs, .closeStdin],
                st.pending_interrupt)
      | .fatal _ => none

/-! ### Child record (src/pty.rs)

The mutex-protected Child record and the operations spawn_child, kill_child,
wait_child and child_status.  Rust panics are modelled as Except errors; the
kill / waitpid system calls an operation performs are recorded in a trace.
The waitpid result (after internal EINTR retries) is an oracle argument. -/

/-- From pty.rs: the mutex-protected child record. -/
structure Child where
  pid : Option Nat
  last_status : Option WaitStatus
  final_status : Option WaitStatus
deriving DecidableEq, Repr

/-- From pty.rs: wait mode. -/
inductive PtyWait
  | hang
  | noHang
deriving DecidableEq, Repr

/-- Panics raised by the child-record operations. -/
inductive PtyPanic
  | spawnTwice
  | killBeforeSpawn
  | killAfterWait
  | waitBeforeSpawn
  | statusBeforeWait
deriving DecidableEq, Repr

/-- System calls issued on the child while holding the record lock. -/
inductive PtySyscall
  | kill (pid : Nat) (sig : Nat)
  | waitpid (pid : Nat) (nohang : Bool)
deriving DecidableEq, Repr

/-- From pty.rs spawn_child: panics if the pid is already set, otherwise
forks and records the new pid (the fork/exec side effects are outside the
record). -/
def spawn_child (c : Child) (newPid : Nat) : Except PtyPanic Child :=
  if c.pid.isSome then .error .spawnTwice
  else .ok { c with pid := some newPid }

/-- From pty.rs kill_child: panics before spawn or after a final status has
been latched; otherwise sends the signal to the child process group. -/
def kill_child (c : Child) (sig : Nat) :
    Except PtyPanic (Child × List PtySyscall) :=
  match c.pid with
  | none => .error .killBeforeSpawn
  | some p =>
      if c.final_status.isSome then .error .killAfterWait
      else .ok (c, [.kill p sig])

/-- Outcome of wait_child: a panic, a propagated waitpid error, or a result
together with the updated record and the syscall trace. -/
inductive WaitOutcome
  | panic (p : PtyPanic)
  | err
  | ok (res : Option WaitStatus) (c : Child) (trace : List PtySyscall)
deriving DecidableEq, Repr

/-- From pty.rs wait_child: panics before spawn; returns the latched final
status without waiting when present; otherwise calls waitpid with
UNTRACED | CONTINUED (| NOHANG for noHang) whose outcome is `oracle`,
records last_status, and latches final_status when the status is exited or
signaled. -/
def wait_child (c : Child) (mode : PtyWait)
    (oracle : Except Unit (Option WaitStatus)) : WaitOutcome :=
  match c.pid with
  | none => .panic .waitBeforeSpawn
  | some p =>
      match c.final_status with
      | some fs => .ok (some fs) c []
      | none =>
          let nohang := mode == PtyWait.noHang
          match oracle with
          | .error _ => .err
          | .ok none => .ok none c [.waitpid p nohang]
          | .ok (some ws) =>
              let c1 : Child :=
                { c with
                  last_status := some ws,
                  final_status :=
                    if ws.isExited || ws.isSignaled then some ws
                    else c.final_status }
              .ok (some ws) c1 [.waitpid p nohang]

/-- From pty.rs child_status: panics before the first wait; otherwise the
most recent wait status. -/
def child_status (c : Child) : Except PtyPanic WaitStatus :=
  match c.last_status with
  | none => .error .statusBeforeWait
  | some s => .ok s

/-! ### Bounded buffer queue (src/buffer.rs)

The mutex-protected state of BufferQueue: a fixed-capacity ring of buffers
(front of the list = oldest element) and a closed flag.  Buffers are
identified by Nat.  The AllocRingBuffer from the ringbuffer crate overwrites
the oldest element when enqueueing into a full ring, and its constructor
panics on capacity 0. -/

/-- From buffer.rs: the state of BufferQueue under its mutex. -/
structure BufferQueue where
  capacity : Nat
  ringbuf : List Nat
  closed : Bool
deriving DecidableEq, Repr

/-- From buffer.rs BufferQueue::new: AllocRingBuffer::new panics on zero
capacity, otherwise starts empty and open. -/
def BufferQueue.mk0 (queue_size : Nat) : Option BufferQueue :=
  if queue_size = 0 then none
  else some { capacity := queue_size, ringbuf := [], closed := false }

/-- One observation of the read loop: a dequeued buffer with the new state,
a definitive end (queue closed and empty), or a blocking wait on the
condition variable (after which the loop re-runs). -/
inductive ReadStep
  | got (b : Nat) (q : BufferQueue)
  | eos
  | block
deriving DecidableEq, Repr

/-- From buffer.rs BufferQueue::read: one iteration of the loop body.
Dequeue returns the oldest element; on an empty ring the reader observes
the end iff the queue is closed, otherwise it waits. -/
def BufferQueue.readStep (q : BufferQueue) : ReadStep :=
  match q.ringbuf with
  | b :: rest => .got b { q with ringbuf := rest }
  | [] => if q.closed then .eos else .block

/-- From buffer.rs BufferQueue::write: discarded when closed; otherwise
enqueued, overwriting the oldest element when the ring is full. -/
def BufferQueue.write (q : BufferQueue) (b : Nat) : BufferQueue :=
  if q.closed then q
  else if q.ringbuf.length = q.capacity then
    { q with ringbuf := q.ringbuf.tail ++ [b] }
  else
    { q with ringbuf := q.ringbuf ++ [b] }

/-- From buffer.rs BufferQueue::close: latches the closed flag (and notifies
all readers blocked on the condition variable). -/
def BufferQueue.close (q : BufferQueue) : BufferQueue :=
  { q with closed := true }

/-! ### Interruptible reader and writer (src/reader.rs, src/writer.rs)

read_imp / write_imp loop until select reports the data fd ready (or the
mode tells them to stop).  The mode may be changed by another thread
between iterations, and select readiness comes from the kernel, so each
iteration consumes one oracle pair (the mode observed under the lock, and
the select outcome).  The final read/write on the data fd returns
`dataResult` bytes. -/

/-- From reader.rs: ReaderMode. -/
inductive ReaderMode
  | timeout (d : Nat)
  | noTimeout
  | closed
deriving DecidableEq, Repr

/-- From writer.rs: WriterMode. -/
inductive WriterMode
  | opened
  | closed
deriving DecidableEq, Repr

/-- Readiness reported by shim::select for the self-pipe fd and the data
fd (a timeout expiry is both flags false). -/
structure SelectOut where
  pipeReady : Bool
  dataReady : Bool
deriving DecidableEq, Repr

/-- Outcome of read_imp: end-of-file returned without reading the data fd,
a read performed on the data fd, or still looping when the oracle list ran
out. -/
inductive ReadOutcome
  | eof
  | dataRead (n : Nat)
  | looping
deriving DecidableEq, Repr

/-- From reader.rs InterruptibleReader::read_imp: each iteration re-reads
the mode (returning end-of-file at once when closed, before select is ever
called), then selects on the self-pipe and the data fd with the mode's
timeout; a fired self-pipe is drained and the loop re-runs; a ready data fd
leads to one read; a pure timeout expiry returns end-of-file. -/
def read_imp (dataResult : Nat) : List (ReaderMode × SelectOut) → ReadOutcome
  | [] => .looping
  | (mode, sel) :: rest =>
      match mode with
      | .closed => .eof
      | .timeout _ =>
          if sel.dataReady then .dataRead dataResult
          else if sel.pipeReady then read_imp dataResult rest
          else .eof
      | .noTimeout =>
          if sel.dataReady then .dataRead dataResult
          else read_imp dataResult rest

/-- Outcome of write_imp: the whole buffer silently discarded (its length
reported as written, the data fd untouched), a write performed on the data
fd, or still looping when the oracle list ran out. -/
inductive WriteOutcome
  | discarded (n : Nat)
  | wrote (n : Nat)
  | looping
deriving DecidableEq, Repr

/-- From writer.rs InterruptibleWriter::write_imp: each iteration re-reads
the mode (when closed, returning the buffer length at once without
touching the data fd), then selects on the self-pipe and data-fd
writability without timeout; a fired self-pipe is drained and the loop
re-runs; a writable data fd leads to one write of `writeResult` bytes. -/
def write_imp (bufLen writeResult : Nat) :
    List (WriterMode × SelectOut) → WriteOutcome
  | [] => .looping
  | (mode, sel) :: rest =>
      match mode with
      | .closed => .discarded bufLen
      | .opened =>
          if sel.dataReady then .wrote writeResult
          else write_imp bufLen writeResult rest

/-! ### Formatter (src/format.rs)

Instants are modelled as Nat (Instant::now() passed in as `now`); the
rendered strftime output is abstracted to the value being formatted: the
wall-clock instant, or the duration `now - base` rendered through the
pattern (UNIX_EPOCH + TimeDelta). -/

/-- From format.rs: TimeSource. -/
inductive TimeSource
  | wall
  | elapsed
  | delta
deriving DecidableEq, Repr

/-- From format.rs: Formatter. -/
structure Formatter where
  enable_header : Bool
  enable_time : Bool
  time_format : String
  time_source : TimeSource
  command : String
  base_ts : Option Nat
deriving DecidableEq, Repr

/-- From format.rs Formatter::new. -/
def Formatter.new (enable_header enable_time : Bool) (time_format : String)
    (time_source : TimeSource) (command : List String) : Formatter :=
  { enable_header := enable_header, enable_time := enable_time,
    time_format := time_format, time_source := time_source,
    command := String.intercalate " " command, base_ts := none }

/-- From format.rs Formatter::need_header. -/
def Formatter.need_header (fm : Formatter) : Bool :=
  fm.enable_header

/-- From format.rs Formatter::need_timestamp. -/
def Formatter.need_timestamp (fm : Formatter) : Bool :=
  fm.enable_time

/-- From format.rs Formatter::format_header: appends the host/os/time/cmd
line (text environment-dependent, abstracted away) and clears the header
flag. -/
def Formatter.format_header (fm : Formatter) : Formatter :=
  { fm with enable_header := false }

/-- Value rendered by format_timestamp: the wall clock for Wall, or the
duration since the base instant for Elapsed and Delta. -/
inductive TsOutput
  | wallClock (now : Nat)
  | duration (d : Nat)
deriving DecidableEq, Repr

/-- From format.rs Formatter::format_timestamp: Wall formats Local::now();
Elapsed and Delta set the base to now when unset, format now minus base,
and Delta then moves the base to now. -/
def Formatter.format_timestamp (fm : Formatter) (now : Nat) :
    Formatter × TsOutput :=
  match fm.time_source with
  | .wall => (fm, .wallClock now)
  | .elapsed | .delta =>
      let base := fm.base_ts.getD now
      let fm2 : Formatter :=
        if fm.time_source == .delta then { fm with base_ts := some now }
        else { fm with base_ts := some base }
      (fm2, .duration (now - base))

/-- From main.rs pty_2_queue_and_file: per loop iteration the formatter is
consulted once; a pending header is formatted (and the pty read skipped),
otherwise a timestamp is prefixed when enabled.  Returns whether the header
was emitted this iteration. -/
def fmIter (fm : Formatter) (now : Nat) : Formatter × Bool :=
  if fm.need_header then (fm.format_header, true)
  else if fm.need_timestamp then ((fm.format_timestamp now).1, false)
  else (fm, false)

/-- Run the pty-reader loop formatter protocol over a list of instants,
counting header emissions. -/
def fmRun : Formatter → List Nat → Formatter × Nat
  | fm, [] => (fm, 0)
  | fm, now :: rest =>
      let step := fmIter fm now
      let tail := fmRun step.1 rest
      (tail.1, (if step.2 then 1 else 0) + tail.2)

/-! ### ANSI-strip writer (src/term.rs)

The external vte crate parses the byte stream and invokes the
vte::Perform callbacks of AnsiPerformer; the parser events are taken as
the input alphabet (print carries the decoded character, execute the
control byte; CSI/OSC/DCS/ESC material arrives through the remaining
callbacks). -/

/-- Parser callbacks of vte::Perform as invoked on AnsiPerformer. -/
inductive VteEvent
  | print (c : Char)
  | execute (b : Nat)
  | csiDispatch
  | oscDispatch
  | dcsHook
  | dcsPut (b : Nat)
  | dcsUnhook
  | escDispatch
deriving DecidableEq, Repr

/-- From term.rs AnsiPerformer: the bytes written to the underlying line
writer for one parser callback.  print writes the single byte `c as u8`
(the scalar value truncated to eight bits); execute forwards only TAB and
LF; every other callback keeps the default no-op implementation of the
vte::Perform trait. -/
def ansiPerform : VteEvent → List Nat
  | .print c => [c.toNat % 256]
  | .execute b => if b = 9 ∨ b = 10 then [b] else []
  | _ => []

/-- From term.rs AnsiStripper::write: the parser feeds each callback to the
performer in order; the output is the concatenation of the emitted bytes. -/
def ansiStrip (evs : List VteEvent) : List Nat :=
  (evs.map ansiPerform).flatten

/-- UTF-8 encoding of one character: the bytes the child produced for it
and the bytes a UTF-8 output file must contain for it. -/
def utf8EncodeChar (c : Char) : List Nat :=
  let n := c.toNat
  if n < 128 then [n]
  else if n < 2048 then [192 + n / 64, 128 + n % 64]
  else if n < 65536 then
    [224 + n / 4096, 128 + n / 64 % 64, 128 + n % 64]
  else
    [240 + n / 262144, 128 + n / 4096 % 64, 128 + n / 64 % 64, 128 + n % 64]

/-! ### Output path selection (src/main.rs, choose_output)

String splitting is implemented over character lists so that every
evaluation reduces in the kernel. -/

/-- Split a character list on a separator character. -/
def splitChar (sep : Char) : List Char → List (List Char)
  | [] => [[]]
  | c :: rest =>
      let r := splitChar sep rest
      if c = sep then [] :: r
      else
        match r with
        | [] => [[c]]
        | g :: gs => (c :: g) :: gs

/-- Join character-list segments with a dot. -/
def joinDot : List (List Char) → List Char
  | [] => []
  | [g] => g
  | g :: gs => g ++ ('.' :: joinDot gs)

/-- Model of Rust Path::file_name: the final normal component of the path
(empty and current-directory components dropped); none for an empty path
or one whose final component is the parent directory. -/
def fileName (p : String) : Option String :=
  let comps := (splitChar '/' p.data).filter
    (fun s => !s.isEmpty && s ≠ ['.'])
  match comps.getLast? with
  | none => none
  | some c => if c = ['.', '.'] then none else some (String.mk c)

/-- Model of Rust Path::file_stem: the file name with the extension after
its last non-leading dot removed. -/
def fileStem (p : String) : Option String :=
  match fileName p with
  | none => none
  | some f =>
      match splitChar '.' f.data with
      | [] => some f
      | [_] => some f
      | [[], _] => some f
      | segs => some (String.mk (joinDot segs.dropLast))

/-- From main.rs choose_output: the while loop that appends -N before
".log" while the file exists, scanning N = 1, 2, ...; `ex` is the
file-existence predicate and `fuel` bounds the iterations (none models a
run that found no free name within the fuel). -/
def suffixLoop (ex : String → Bool) (base_name : String) :
    Nat → Nat → Option String
  | 0, _ => none
  | fuel + 1, k =>
      let out_path := base_name ++ "-" ++ toString k ++ ".log"
      if ex out_path then suffixLoop ex base_name fuel (k + 1)
      else some out_path

/-- From main.rs choose_output: empty for --null; the --output value when
nonempty; otherwise file_stem(argv[0]) + ".log", suffixed while the file
exists unless --force.  none models the usage_error exit (argv[0] has no
file stem) or fuel exhaustion. -/
def choose_output (null : Bool) (output : String) (force : Bool)
    (argv0 : String) (ex : String → Bool) (fuel : Nat) : Option String :=
  if null then some "" else
  if output ≠ "" then some output else
  match fileStem argv0 with
  | none => none
  | some base_name =>
      let out_path := base_name ++ ".log"
      if force then some out_path
      else if ex out_path then suffixLoop ex base_name fuel 1
      else some out_path

/-- The path-selection rule exactly as the claim words it, for comparison:
basename(argv[0]) + ".log" (basename keeps the extension), with the same
suffix scheme. -/
def choose_output_claimed (null : Bool) (output : String) (force : Bool)
    (argv0 : String) (ex : String → Bool) (fuel : Nat) : Option String :=
  if null then some "" else
  if output ≠ "" then some output else
  match fileName argv0 with
  | none => none
  | some base_name =>
      let out_path := base_name ++ ".log"
      if force then some out_path
      else if ex out_path then suffixLoop ex base_name fuel 1
      else some out_path

/-! ### Signal dispositions (src/shim.rs, src/signal.rs) -/

/-- From shim.rs: the SigAction enum accepted by the sigaction shim.
Exactly two variants are defined there. -/
inductive SigAction
  | Default
  | Ignore
deriving DecidableEq, Repr

/-- Modelled from the spec: the three dispositions of the sigaction shim
named by the spec and referenced by signal.rs — Default, Ignore, and Noop
(a do-nothing handler installed with SA_RESTART and a full mask). -/
inductive SpecSigAction
  | Default
  | Ignore
  | Noop
deriving DecidableEq, Repr

/-- The disposition denoted by each variant the shim actually defines
(SIG_DFL for Default, SIG_IGN for Ignore). -/
def SigAction.toSpec : SigAction → SpecSigAction
  | .Default => .Default
  | .Ignore => .Ignore

/-- From signal.rs: EVENT_SIGNALS. -/
def EVENT_SIGNALS : List Nat :=
  [SIGTERM, SIGINT, SIGHUP, SIGQUIT, SIGTSTP, SIGTTIN, SIGTTOU, SIGCONT,
   SIGCHLD, SIGWINCH]

/-- From signal.rs init_parent_signals: the disposition requested for each
signal — SigAction::Noop for CHLD, SigAction::Default for the other event
signals, SigAction::Noop for the blocked ALRM, SigAction::Ignore for PIPE.
The Noop requests name a variant that shim.rs does not define. -/
def init_parent_signals_actions : List (Nat × SpecSigAction) :=
  (EVENT_SIGNALS.map (fun sig =>
    (sig, if sig = SIGCHLD then SpecSigAction.Noop
          else SpecSigAction.Default)))
  ++ [(SIGALRM, SpecSigAction.Noop), (SIGPIPE, SpecSigAction.Ignore)]

end Reclog

namespace Reclog

/-- Claim C1: exit-status forwarding.  If the child exited with code c, the
parent terminates with code c and prints a diagnostic exactly when c is
nonzero; if the child was killed by signal n with no pending interrupt
latched, the parent terminates with code 128 + n and a diagnostic; if the
status is neither exited nor signaled, the parent terminates with
EXIT_COMMAND_FAILED (126). -/
theorem forward_exit_status_spec :
    (∀ (c : Int) (pi : Option Nat),
      forward_exit_status (.exited c) pi =
        { raised := none, code := c, diagnostic := decide (c ≠ 0) }) ∧
    (∀ (n : Nat),
      forward_exit_status (.signaled n) none =
        { raised := none, code := 128 + (n : Int), diagnostic := true }) ∧
    (∀ (s : Nat) (pi : Option Nat),
      forward_exit_status (.stopped s) pi =
        { raised := none, code := 126, diagnostic := true }) ∧
    (∀ (pi : Option Nat),
      forward_exit_status .continued pi =
        { raised := none, code := 126, diagnostic := true }) := by
  refine ⟨fun c pi => ?_, fun n => rfl, fun s pi => rfl, fun pi => rfl⟩
  simp only [forward_exit_status, EXIT_SUCCESS]
  congr 1
  rcases eq_or_ne c 0 with h | h <;> simp [h, bne]

/-- Claim C2: signal-processor shutdown.  Whenever the loop observes a
child-status event whose wait status is exited or signaled, it breaks out of
the loop, then sets the pty-reader read timeout to the quit timeout, closes
the stdin reader, and returns the latched pending_interrupt value. -/
theorem process_signals_shutdown (st : SPState) (status : WaitStatus)
    (rest : List SPEvent) (timeoutMs : Nat)
    (h : status.isExited = true ∨ status.isSignaled = true) :
    spStep st (.child (.ok (some status))) = .brk [.waitChildNoHang] ∧
    process_signals timeoutMs st (.child (.ok (some status)) :: rest) =
      some ([.waitChildNoHang, .setPtyTimeout timeoutMs, .closeStdin],
            st.pending_interrupt) := by
  have hb : (status.isExited || status.isSignaled) = true := by
    rcases h with h | h <;> simp [h]
  refine ⟨?_, ?_⟩
  · simp [spStep, hb]
  · simp [process_signals, spStep, hb]

/-- Witness for C2: a child-exit event with a latched SIGINT interrupt. -/
theorem process_signals_shutdown_witness :
    spStep ⟨some SIGINT, none⟩ (.child (.ok (some (.exited 0)))) =
      .brk [.waitChildNoHang] ∧
    process_signals 10 ⟨some SIGINT, none⟩ [.child (.ok (some (.exited 0)))] =
      some ([.waitChildNoHang, .setPtyTimeout 10, .closeStdin], some SIGINT) :=
  process_signals_shutdown ⟨some SIGINT, none⟩ (.exited 0) [] 10 (Or.inl rfl)

/-- Claim C3: child-record invariants.  With the process id already set:
a second spawn_child is a panic and does not set it again; once a final
status is latched, every wait_child returns that status with no waitpid
call and no state change; kill_child after a latched final status is a
panic and issues no kill; and wait_child in NoHang mode with no pending
status (waitpid returned nothing) returns None. -/
theorem child_record_invariants (c : Child) (p q sig : Nat) (fs : WaitStatus)
    (mode : PtyWait) (oracle : Except Unit (Option WaitStatus))
    (hpid : c.pid = some p) :
    (spawn_child c q = .error .spawnTwice) ∧
    (c.final_status = some fs →
      wait_child c mode oracle = .ok (some fs) c []) ∧
    (c.final_status = some fs → kill_child c sig = .error .killAfterWait) ∧
    (c.final_status = none →
      wait_child c .noHang (.ok none) = .ok none c [.waitpid p true]) := by
  refine ⟨?_, ?_, ?_, ?_⟩
  · simp [spawn_child, hpid]
  · intro h
    simp [wait_child, hpid, h]
  · intro h
    simp [kill_child, hpid, h]
  · intro h
    simp [wait_child, hpid, h]

/-- Witness for C3: a record with pid 42 and a latched exit status for the
first three parts, and a fresh record with pid 42 for the NoHang part. -/
theorem child_record_invariants_witness :
    (spawn_child ⟨some 42, some (.exited 0), some (.exited 0)⟩ 7 =
      .error .spawnTwice) ∧
    (wait_child ⟨some 42, some (.exited 0), some (.exited 0)⟩ .noHang
        (.ok none) =
      .ok (some (.exited 0)) ⟨some 42, some (.exited 0), some (.exited 0)⟩
        []) ∧
    (kill_child ⟨some 42, some (.exited 0), some (.exited 0)⟩ SIGTERM =
      .error .killAfterWait) ∧
    (wait_child ⟨some 42, none, none⟩ .noHang (.ok none) =
      .ok none ⟨some 42, none, none⟩ [.waitpid 42 true]) := by
  refine ⟨?_, ?_, ?_, ?_⟩
  · exact (child_record_invariants _ 42 7 SIGTERM (.exited 0) .noHang
      (.ok none) rfl).1
  · exact (child_record_invariants _ 42 7 SIGTERM (.exited 0) .noHang
      (.ok none) rfl).2.1 rfl
  · exact (child_record_invariants _ 42 7 SIGTERM (.exited 0) .noHang
      (.ok none) rfl).2.2.1 rfl
  · exact (child_record_invariants ⟨some 42, none, none⟩ 42 7 SIGTERM
      (.exited 0) .noHang (.ok none) rfl).2.2.2 rfl

/-- Claim C4: bounded-queue protocol.  A reader blocks iff the queue is
empty and not closed, observes the definitive end iff the queue is empty
and closed, and otherwise receives the oldest buffer; a write enqueues
while open, evicting the oldest element when the ring is full, and is
silently discarded once closed; close latches the closed flag (leaving the
ring intact for draining). -/
theorem buffer_queue_protocol (q : BufferQueue) (b : Nat) :
    (q.readStep = .block ↔ q.ringbuf = [] ∧ q.closed = false) ∧
    (q.readStep = .eos ↔ q.ringbuf = [] ∧ q.closed = true) ∧
    (∀ (hd : Nat) (rest : List Nat), q.ringbuf = hd :: rest →
      q.readStep = .got hd { q with ringbuf := rest }) ∧
    (q.closed = false → q.ringbuf.length < q.capacity →
      q.write b = { q with ringbuf := q.ringbuf ++ [b] }) ∧
    (q.closed = false → q.ringbuf.length = q.capacity →
      q.write b = { q with ringbuf := q.ringbuf.tail ++ [b] }) ∧
    (q.closed = true → q.write b = q) ∧
    (q.close = { q with closed := true }) := by
  obtain ⟨cap, rb, cl⟩ := q
  refine ⟨?_, ?_, ?_, ?_, ?_, ?_, rfl⟩
  · cases rb <;> cases cl <;> simp [BufferQueue.readStep]
  · cases rb <;> cases cl <;> simp [BufferQueue.readStep]
  · intro hd rest h
    simp only at h
    subst h
    simp [BufferQueue.readStep]
  · intro h1 h2
    simp only at h1 h2 ⊢
    simp [BufferQueue.write, h1, Nat.ne_of_lt h2]
  · intro h1 h2
    simp only at h1 h2 ⊢
    simp [BufferQueue.write, h1, h2]
  · intro h1
    simp only at h1
    simp [BufferQueue.write, h1]

/-- Witness for C4: a capacity-2 queue exercising every branch of the
protocol. -/
theorem buffer_queue_protocol_witness :
    BufferQueue.readStep ⟨2, [], false⟩ = .block ∧
    BufferQueue.readStep ⟨2, [], true⟩ = .eos ∧
    BufferQueue.readStep ⟨2, [5, 6], false⟩ = .got 5 ⟨2, [6], false⟩ ∧
    BufferQueue.write ⟨2, [5], false⟩ 7 = ⟨2, [5, 7], false⟩ ∧
    BufferQueue.write ⟨2, [5, 6], false⟩ 7 = ⟨2, [6, 7], false⟩ ∧
    BufferQueue.write ⟨2, [5, 6], true⟩ 7 = ⟨2, [5, 6], true⟩ ∧
    BufferQueue.close ⟨2, [5], false⟩ = ⟨2, [5], true⟩ := by
  refine ⟨?_, ?_, ?_, ?_, ?_, ?_, ?_⟩
  · exact (buffer_queue_protocol ⟨2, [], false⟩ 0).1.mpr ⟨rfl, rfl⟩
  · exact (buffer_queue_protocol ⟨2, [], true⟩ 0).2.1.mpr ⟨rfl, rfl⟩
  · exact (buffer_queue_protocol ⟨2, [5, 6], false⟩ 0).2.2.1 5 [6] rfl
  · exact (buffer_queue_protocol ⟨2, [5], false⟩ 7).2.2.2.1 rfl (by decide)
  · exact (buffer_queue_protocol ⟨2, [5, 6], false⟩ 7).2.2.2.2.1 rfl rfl
  · exact (buffer_queue_protocol ⟨2, [5, 6], true⟩ 7).2.2.2.2.2.1 rfl
  · exact (buffer_queue_protocol ⟨2, [5], false⟩ 0).2.2.2.2.2.2

/-- Claim C5: closed-mode behavior of the interruptible channels.  A read
whose observed mode is closed returns 0 (end-of-file) without touching the
data fd; a write whose observed mode is closed silently discards the
buffer, reporting the full buffer length as written, without touching the
data fd; and a read in timeout mode whose select call returns with neither
the self-pipe nor the data fd ready returns 0 (end-of-file). -/
theorem interruptible_closed_modes (dataResult bufLen writeResult d : Nat)
    (sel : SelectOut) (restR : List (ReaderMode × SelectOut))
    (restW : List (WriterMode × SelectOut)) :
    read_imp dataResult ((ReaderMode.closed, sel) :: restR) = .eof ∧
    write_imp bufLen writeResult ((WriterMode.closed, sel) :: restW) =
      .discarded bufLen ∧
    read_imp dataResult
        ((ReaderMode.timeout d, ⟨false, false⟩) :: restR) = .eof :=
  ⟨rfl, rfl, rfl⟩

/-- format_timestamp never changes the header flag, the time flag, or the
time source. -/
theorem format_timestamp_preserves (fm : Formatter) (now : Nat) :
    (fm.format_timestamp now).1.enable_header = fm.enable_header ∧
    (fm.format_timestamp now).1.enable_time = fm.enable_time ∧
    (fm.format_timestamp now).1.time_source = fm.time_source := by
  cases h : fm.time_source <;>
    simp only [Formatter.format_timestamp, h] <;>
    (try split) <;>
    simp [h]

/-- format_timestamp in elapsed mode keeps an already-set base. -/
theorem format_timestamp_elapsed_base (fm : Formatter) (now b : Nat)
    (hsrc : fm.time_source = .elapsed) (hb : fm.base_ts = some b) :
    (fm.format_timestamp now).1.base_ts = some b := by
  simp [Formatter.format_timestamp, hsrc, hb]

/-- One pty-reader iteration in elapsed mode keeps an already-set base and
the time source. -/
theorem fmIter_elapsed_base (fm : Formatter) (now b : Nat)
    (hsrc : fm.time_source = .elapsed) (hb : fm.base_ts = some b) :
    (fmIter fm now).1.base_ts = some b ∧
    (fmIter fm now).1.time_source = .elapsed := by
  unfold fmIter
  split
  · exact ⟨hb, hsrc⟩
  · split
    · exact ⟨format_timestamp_elapsed_base fm now b hsrc hb,
        ((format_timestamp_preserves fm now).2.2).trans hsrc⟩
    · exact ⟨hb, hsrc⟩

/-- The pty-reader loop in elapsed mode never changes a set base. -/
theorem fmRun_elapsed_base (nows : List Nat) :
    ∀ (fm : Formatter) (b : Nat), fm.time_source = .elapsed →
      fm.base_ts = some b → (fmRun fm nows).1.base_ts = some b := by
  induction nows with
  | nil =>
      intro fm b _ hb
      exact hb
  | cons now rest ih =>
      intro fm b hsrc hb
      have h2 := fmIter_elapsed_base fm now b hsrc hb
      simpa only [fmRun] using ih _ b h2.2 h2.1

/-- After the header flag is off, it stays off and the header is never
emitted again. -/
theorem fmIter_header_off (fm : Formatter) (now : Nat)
    (h : fm.enable_header = false) :
    (fmIter fm now).1.enable_header = false ∧ (fmIter fm now).2 = false := by
  simp only [fmIter, Formatter.need_header, h, Bool.false_eq_true, if_false]
  split
  · exact ⟨((format_timestamp_preserves fm now).1).trans h, rfl⟩
  · exact ⟨h, rfl⟩

/-- With the header flag off, the loop emits no header. -/
theorem fmRun_header_off (nows : List Nat) :
    ∀ fm : Formatter, fm.enable_header = false → (fmRun fm nows).2 = 0 := by
  induction nows with
  | nil =>
      intro fm _
      rfl
  | cons now rest ih =>
      intro fm h
      have h2 := fmIter_header_off fm now h
      simp [fmRun, h2.2, ih _ h2.1]

/-- The loop emits the header at most once. -/
theorem fmRun_header_le_one (nows : List Nat) :
    ∀ fm : Formatter, (fmRun fm nows).2 ≤ 1 := by
  induction nows with
  | nil =>
      intro fm
      simp [fmRun]
  | cons now rest ih =>
      intro fm
      cases h : fm.enable_header with
      | true =>
          have hIter : fmIter fm now = (fm.format_header, true) := by
            simp [fmIter, Formatter.need_header, h]
          have hOff : (fmRun fm.format_header rest).2 = 0 :=
            fmRun_header_off rest _ rfl
          simp [fmRun, hIter, hOff]
      | false =>
          have h2 := fmIter_header_off fm now h
          simp only [fmRun, h2.2, Bool.false_eq_true, if_false, Nat.zero_add]
          exact ih _

/-- Claim C6: formatter invariants.  Along any run of the pty-reader
formatting protocol the header is emitted at most once (format_header
latches the flag false); in elapsed mode a set base timestamp is never
changed by later emissions; in delta mode the base is updated to the
current instant by every emission. -/
theorem formatter_invariants (fm : Formatter) (now b : Nat)
    (nows : List Nat) (hb : fm.base_ts = some b) :
    (fm.format_header.enable_header = false) ∧
    ((fmRun fm nows).2 ≤ 1) ∧
    (fm.time_source = .elapsed → (fmRun fm nows).1.base_ts = some b) ∧
    (fm.time_source = .delta →
      (fm.format_timestamp now).1.base_ts = some now) := by
  refine ⟨rfl, fmRun_header_le_one nows fm, ?_, ?_⟩
  · intro hsrc
    exact fmRun_elapsed_base nows fm b hsrc hb
  · intro hsrc
    simp [Formatter.format_timestamp, hsrc]

/-- Witness for C6: an elapsed-mode formatter with base 5 run over two
instants, and a delta-mode formatter stamped at instant 9. -/
theorem formatter_invariants_witness :
    ((Formatter.mk true true "%T" .elapsed "cmd" (some 5)).format_header.enable_header
      = false) ∧
    ((fmRun (Formatter.mk true true "%T" .elapsed "cmd" (some 5)) [7, 9]).2 ≤ 1) ∧
    ((fmRun (Formatter.mk true true "%T" .elapsed "cmd" (some 5)) [7, 9]).1.base_ts
      = some 5) ∧
    (((Formatter.mk false true "%T" .delta "cmd" (some 5)).format_timestamp 9).1.base_ts
      = some 9) := by
  refine ⟨?_, ?_, ?_, ?_⟩
  · exact (formatter_invariants
      (Formatter.mk true true "%T" .elapsed "cmd" (some 5)) 9 5 [7, 9] rfl).1
  · exact (formatter_invariants
      (Formatter.mk true true "%T" .elapsed "cmd" (some 5)) 9 5 [7, 9] rfl).2.1
  · exact (formatter_invariants
      (Formatter.mk true true "%T" .elapsed "cmd" (some 5)) 9 5 [7, 9] rfl).2.2.1 rfl
  · exact (formatter_invariants
      (Formatter.mk false true "%T" .delta "cmd" (some 5)) 9 5 [7, 9] rfl).2.2.2 rfl

/-- Claim C10: in elapsed and delta modes, the first format_timestamp call
on a formatter with an unset base sets the base to the current instant and
formats exactly the zero duration, whatever that instant is. -/
theorem format_timestamp_first_zero (fm : Formatter) (now : Nat)
    (hb : fm.base_ts = none)
    (hsrc : fm.time_source = .elapsed ∨ fm.time_source = .delta) :
    (fm.format_timestamp now).2 = .duration 0 ∧
    (fm.format_timestamp now).1.base_ts = some now := by
  rcases hsrc with h | h <;> simp [Formatter.format_timestamp, h, hb]

/-- Witness for C10: elapsed mode, first call at instant 1000. -/
theorem format_timestamp_first_zero_witness :
    ((Formatter.mk false true "%T" .elapsed "cmd" none).format_timestamp 1000).2
      = .duration 0 ∧
    ((Formatter.mk false true "%T" .elapsed "cmd" none).format_timestamp 1000).1.base_ts
      = some 1000 :=
  format_timestamp_first_zero
    (Formatter.mk false true "%T" .elapsed "cmd" none) 1000 rfl (Or.inl rfl)

/-- Claim C7, failing input: the performer writes `c as u8` for every
printed character, so the non-ASCII printable character U+00E9 (child
bytes 0xC3 0xA9) reaches the output file as the single byte 0xE9 — not
unchanged, and not valid UTF-8 — while ASCII printables, TAB, and LF pass
through and other C0 controls and CSI/OSC/DCS callbacks emit nothing. -/
theorem ansi_strip_truncates_nonascii :
    ansiStrip [.print 'R', .print 'é', .execute 10] = [82, 233, 10] ∧
    utf8EncodeChar 'é' = [195, 169] ∧
    ansiPerform (.print 'é') ≠ utf8EncodeChar 'é' ∧
    ansiPerform (.print 'R') = utf8EncodeChar 'R' ∧
    ansiPerform (.execute 9) = [9] ∧
    ansiPerform (.execute 27) = [] ∧
    ansiPerform .csiDispatch = [] ∧
    ansiPerform .oscDispatch = [] ∧
    ansiPerform (.dcsPut 65) = [] := by
  refine ⟨?_, ?_, ?_, ?_, ?_, rfl, rfl, rfl, rfl⟩ <;> decide

/-- If the starting index is at most N, every tried suffix below N is
taken, suffix N is free, and the fuel covers the distance, the suffix loop
stops exactly at N. -/
theorem suffixLoop_finds (ex : String → Bool) (base_name : String) :
    ∀ (fuel k N : Nat), k ≤ N → N < k + fuel →
      (∀ j, k ≤ j → j < N →
        ex (base_name ++ "-" ++ toString j ++ ".log") = true) →
      ex (base_name ++ "-" ++ toString N ++ ".log") = false →
      suffixLoop ex base_name fuel k =
        some (base_name ++ "-" ++ toString N ++ ".log") := by
  intro fuel
  induction fuel with
  | zero =>
      intro k N hk hN _ _
      omega
  | succ fuel ih =>
      intro k N hk hN hall hfree
      rcases Nat.eq_or_lt_of_le hk with heq | hlt
      · subst heq
        simp [suffixLoop, hfree]
      · have htaken : ex (base_name ++ "-" ++ toString k ++ ".log") = true :=
          hall k le_rfl hlt
        simp only [suffixLoop, htaken, if_true]
        exact ih (k + 1) N hlt (by omega)
          (fun j hj hj2 => hall j (by omega) hj2) hfree

/-- Claim C8, amended: with --output empty and --null unset, the chosen
output path is file_stem(argv[0]) + ".log" — the final path component of
argv[0] with its last extension removed — and when that file exists (and
--force is not given) a numeric suffix -N is placed before ".log", with N
the smallest positive integer making the path not exist. -/
theorem choose_output_amended (argv0 stem : String) (ex : String → Bool)
    (fuel N : Nat) (hstem : fileStem argv0 = some stem) :
    (ex (stem ++ ".log") = false →
      choose_output false "" false argv0 ex fuel = some (stem ++ ".log")) ∧
    (ex (stem ++ ".log") = true → 1 ≤ N → N < 1 + fuel →
      (∀ j, 1 ≤ j → j < N →
        ex (stem ++ "-" ++ toString j ++ ".log") = true) →
      ex (stem ++ "-" ++ toString N ++ ".log") = false →
      choose_output false "" false argv0 ex fuel =
        some (stem ++ "-" ++ toString N ++ ".log")) := by
  constructor
  · intro hfree
    simp [choose_output, hstem, hfree]
  · intro hbase h1 h2 hall hfree
    have hloop := suffixLoop_finds ex stem fuel 1 N h1 h2 hall hfree
    simp [choose_output, hstem, hbase, hloop]

/-- Counterexample for C8 as stated: for argv[0] = "tool.sh" with no
existing files the code derives "tool.log" (file_stem drops the ".sh"
extension), while basename(argv[0]) + ".log" would be "tool.sh.log". -/
theorem choose_output_counterexample :
    choose_output false "" false "tool.sh" (fun _ => false) 100 =
      some "tool.log" ∧
    choose_output_claimed false "" false "tool.sh" (fun _ => false) 100 =
      some "tool.sh.log" ∧
    ("tool.log" : String) ≠ "tool.sh.log" := by
  refine ⟨?_, ?_, ?_⟩ <;> decide

/-- Witness for C8 (amended): argv[0] = "tool.sh"; with no files present
the path is "tool.log"; with "tool.log" and "tool-1.log" present the path
is "tool-2.log". -/
theorem choose_output_amended_witness :
    choose_output false "" false "tool.sh" (fun _ => false) 100 =
      some "tool.log" ∧
    choose_output false "" false "tool.sh"
        (fun s => s == "tool.log" || s == "tool-1.log") 100 =
      some "tool-2.log" := by
  constructor
  · exact (choose_output_amended "tool.sh" "tool" (fun _ => false) 100 2
      (by decide)).1 rfl
  · exact (choose_output_amended "tool.sh" "tool"
      (fun s => s == "tool.log" || s == "tool-1.log") 100 2 (by decide)).2
      (by decide) (by decide) (by decide)
      (fun j h1 h2 => by
        have hj : j = 1 := by omega
        subst hj
        decide)
      (by decide)

/-- Claim C9, failing input: init_parent_signals requests the Noop
disposition for CHLD and for the blocked ALRM (and Ignore for PIPE,
Default for the rest), but no value of the shim's SigAction denotes Noop:
the shim defines two dispositions, not the three the claim names. -/
theorem sigaction_noop_missing :
    ((SIGCHLD, SpecSigAction.Noop) ∈ init_parent_signals_actions) ∧
    ((SIGALRM, SpecSigAction.Noop) ∈ init_parent_signals_actions) ∧
    ((SIGPIPE, SpecSigAction.Ignore) ∈ init_parent_signals_actions) ∧
    ((SIGTERM, SpecSigAction.Default) ∈ init_parent_signals_actions) ∧
    (∀ a : SigAction, a.toSpec ≠ SpecSigAction.Noop) := by
  refine ⟨by decide, by decide, by decide, by decide, ?_⟩
  intro a
  cases a <;> simp [SigAction.toSpec]

end Reclog
